import Mathlib

/-!
Verification development for the latency-sweep orchestration pipeline
(`orchestrate/analyze.py` and `orchestrate/run_sweep.py`).

Numbers reported by probes (latency percentiles in microseconds, the
coefficient of variation) are modelled as rationals; lifetime counters are
modelled as integers.  Python's `float('inf')` score is modelled as the top
element of `WithTop ℚ`.
-/

/-- The median as computed by `np.median`: sort ascending; for odd length take
the middle element, for even length the average of the two middle elements.
Applied only to nonempty lists in the pipeline (the value `0` returned on `[]`
by this total function is never relied upon by a theorem). -/
def medianQ (l : List ℚ) : ℚ :=
  if l.length % 2 = 1 then
    (l.insertionSort (fun a b => a ≤ b)).getD (l.length / 2) 0
  else
    ((l.insertionSort (fun a b => a ≤ b)).getD (l.length / 2 - 1) 0 +
      (l.insertionSort (fun a b => a ≤ b)).getD (l.length / 2) 0) / 2

/-- Python's `min` over a nonempty list (`0` junk value on `[]`, never used). -/
def listMin : List ℚ → ℚ
  | [] => 0
  | x :: xs => xs.foldl min x

/-- Python's `max` over a nonempty list (`0` junk value on `[]`, never used). -/
def listMax : List ℚ → ℚ
  | [] => 0
  | x :: xs => xs.foldl max x

/-- `ConfigMetrics` from `analyze.py`: aggregation state for one
`(region, instance_family)` key. -/
structure ConfigMetrics where
  region : String
  instance_family : String
  p50_samples : List ℚ := []
  p99_samples : List ℚ := []
  p999_samples : List ℚ := []
  cv_samples : List ℚ := []
  reconnects : Int := 0
  errors : Int := 0
  message_count : Int := 0
deriving DecidableEq

/-- The aggregation key of a `ConfigMetrics`. -/
def ConfigMetrics.key (m : ConfigMetrics) : String × String :=
  (m.region, m.instance_family)

/-- The hard-constraint violation reasons produced by `check_hard_constraints`.
The Python code renders each as a formatted message string; the interpolated
numbers are presentation only, so violations are modelled as tags.  `noData`
corresponds to the literal message `"no data collected"`. -/
inductive Violation
  | noData
  | p99Limit
  | reconnectLimit
  | tailRatioLimit
deriving DecidableEq

/-- `check_hard_constraints` from `analyze.py`: returns
`(passes, violations)`.  With no p99 samples the configuration fails with the
distinct `no data collected` reason.  Otherwise: median p99 above 50,000 µs,
reconnect watermark above 1, and (only when both medians are positive)
p999/p99 ratio above 3.0 each append a violation, in that order. -/
def check_hard_constraints (m : ConfigMetrics) : Bool × List Violation :=
  if m.p99_samples = [] then (false, [Violation.noData])
  else
    let p99 := medianQ m.p99_samples
    let p999 := if m.p999_samples = [] then (0 : ℚ) else medianQ m.p999_samples
    let v1 : List Violation := if 50000 < p99 then [Violation.p99Limit] else []
    let v2 : List Violation := if 1 < m.reconnects then [Violation.reconnectLimit] else []
    let v3 : List Violation :=
      if 0 < p99 ∧ 0 < p999 ∧ 3 < p999 / p99 then [Violation.tailRatioLimit] else []
    let violations := v1 ++ v2 ++ v3
    (violations.isEmpty, violations)

/-- `all_p99` inside `compute_score`: median p99 of every configuration that
has at least one p99 sample. -/
def allP99 (all_metrics : List ConfigMetrics) : List ℚ :=
  (all_metrics.filter (fun x => !x.p99_samples.isEmpty)).map
    (fun x => medianQ x.p99_samples)

/-- `all_cv` inside `compute_score`: median cv of every configuration that has
at least one cv sample. -/
def allCv (all_metrics : List ConfigMetrics) : List ℚ :=
  (all_metrics.filter (fun x => !x.cv_samples.isEmpty)).map
    (fun x => medianQ x.cv_samples)

/-- `norm_p99` inside `compute_score`: min-max normalisation of this
configuration's median p99 against the whole set, `0` on a tie. -/
def normP99 (m : ConfigMetrics) (all_metrics : List ConfigMetrics) : ℚ :=
  if listMin (allP99 all_metrics) < listMax (allP99 all_metrics) then
    (medianQ m.p99_samples - listMin (allP99 all_metrics)) /
      (listMax (allP99 all_metrics) - listMin (allP99 all_metrics))
  else 0

/-- `norm_cv` inside `compute_score`: this configuration's median cv divided
by the maximal median cv, `0` when that maximum is not positive. -/
def normCv (m : ConfigMetrics) (all_metrics : List ConfigMetrics) : ℚ :=
  if 0 < listMax (allCv all_metrics) then
    medianQ m.cv_samples / listMax (allCv all_metrics)
  else 0

/-- `compute_score` from `analyze.py` (the score component; the `details` dict
is presentation/export only).  `float('inf')` for a configuration with no p99
samples, and for the degenerate case where no configuration contributes
normalisation data; otherwise `0.7 * norm_p99 + 0.3 * norm_cv`. -/
def compute_score (m : ConfigMetrics) (all_metrics : List ConfigMetrics) : WithTop ℚ :=
  if m.p99_samples = [] then ⊤
  else if allP99 all_metrics = [] ∨ allCv all_metrics = [] then ⊤
  else ((7 / 10 * normP99 m all_metrics + 3 / 10 * normCv m all_metrics : ℚ) : WithTop ℚ)

/-- One entry of the `scored` list built in `analyze`. -/
structure ScoredEntry where
  metrics : ConfigMetrics
  score : WithTop ℚ
  passes_constraints : Bool
  violations : List Violation
deriving DecidableEq

/-- The `scored` list built in `analyze`: one entry per configuration, scored
against the full set. -/
def scoreConfigs (all_metrics : List ConfigMetrics) : List ScoredEntry :=
  all_metrics.map (fun m =>
    let c := check_hard_constraints m
    { metrics := m
      score := compute_score m all_metrics
      passes_constraints := c.1
      violations := c.2 })

/-- Python's `not x["passes_constraints"]` as the first sort-key component:
`False`(=0) for passing, `True`(=1) for failing. -/
def failFlag (e : ScoredEntry) : Nat :=
  if e.passes_constraints then 0 else 1

/-- Ascending comparison on the sort key `(not passes_constraints, score)`
used by `scored.sort` in `analyze`: lexicographic on the pair. -/
def rankLe (a b : ScoredEntry) : Prop :=
  failFlag a < failFlag b ∨ (failFlag a = failFlag b ∧ a.score ≤ b.score)

instance : DecidableRel rankLe := fun a b => by
  unfold rankLe; infer_instance

instance : IsTotal ScoredEntry rankLe where
  total a b := by
    unfold rankLe
    rcases Nat.lt_trichotomy (failFlag a) (failFlag b) with h | h | h
    · exact Or.inl (Or.inl h)
    · rcases le_total a.score b.score with hs | hs
      · exact Or.inl (Or.inr ⟨h, hs⟩)
      · exact Or.inr (Or.inr ⟨h.symm, hs⟩)
    · exact Or.inr (Or.inl h)

instance : IsTrans ScoredEntry rankLe where
  trans a b c hab hbc := by
    unfold rankLe at *
    rcases hab with h1 | ⟨h1, s1⟩ <;> rcases hbc with h2 | ⟨h2, s2⟩
    · exact Or.inl (h1.trans h2)
    · exact Or.inl (h2 ▸ h1)
    · exact Or.inl (h1 ▸ h2)
    · exact Or.inr ⟨h1.trans h2, s1.trans s2⟩

/-- `scored.sort(key=lambda x: (not x["passes_constraints"], x["score"]))`. -/
def sortScored (l : List ScoredEntry) : List ScoredEntry :=
  l.insertionSort rankLe

/-- The `recommendation` computed in `export_json`: the first entry of the
ranking that passes the hard constraints, absent (`None`) when no entry
passes.  (The export projects region / instance family / p99 / cv from this
entry; the projection is presentation only.) -/
def export_recommendation (scored : List ScoredEntry) : Option ScoredEntry :=
  (scored.filter (fun s => s.passes_constraints)).head?

/-- Outcome of `statistical_comparison`.  `error` is the `{"error": msg}`
dict.  `computed` stands for the dict holding the Mann-Whitney p-value,
significance flags and bootstrap confidence interval; those numbers are
produced by external floating-point library code (scipy, seeded numpy
resampling) outside this embedding, so the constructor records the two sample
sequences they are computed from. -/
inductive CompOutcome
  | error (msg : String)
  | computed (samples1 samples2 : List ℚ)
deriving DecidableEq

/-- `statistical_comparison` from `analyze.py`: `None` when either
configuration has no p99 samples at all; the structured insufficient-samples
error when either has fewer than 5; otherwise the computed statistics. -/
def statistical_comparison (m1 m2 : ConfigMetrics) : Option CompOutcome :=
  if m1.p99_samples = [] ∨ m2.p99_samples = [] then none
  else if m1.p99_samples.length < 5 ∨ m2.p99_samples.length < 5 then
    some (CompOutcome.error "insufficient samples for statistical comparison")
  else some (CompOutcome.computed m1.p99_samples m2.p99_samples)

/-- The `aggregate` sub-object of a record's metrics payload.  Every field is
read with `dict.get(key, 0)` in `load_results`, so each is optional here;
`none` models an absent key. -/
structure Aggregate where
  count : Option Int := none
  p50_us : Option ℚ := none
  p99_us : Option ℚ := none
  p999_us : Option ℚ := none
  cv : Option ℚ := none
deriving DecidableEq

/-- The `counters` sub-object of a record's metrics payload; fields read with
`dict.get(key, 0)`, so optional. -/
structure Counters where
  reconnects : Option Int := none
  errors : Option Int := none
  messages : Option Int := none
deriving DecidableEq

/-- The `metrics` payload of a record: `record["metrics"].get("aggregate", {})`
and `.get("counters", {})`, so both sub-objects are optional. -/
structure MetricsPayload where
  aggregate : Option Aggregate := none
  counters : Option Counters := none
deriving DecidableEq

/-- One well-formed log record as consumed by `load_results` (the `timestamp`
and `elapsed_sec` fields are written by the collector but never read by the
loader, so they are omitted). -/
structure Record where
  region : String
  instance_family : String
  instance_id : String := ""
  metrics : MetricsPayload := {}
deriving DecidableEq

/-- The aggregation key of a record. -/
def Record.key (r : Record) : String × String :=
  (r.region, r.instance_family)

/-- Effective `aggregate` dict of a record (`{}` when absent). -/
def Record.agg (r : Record) : Aggregate :=
  r.metrics.aggregate.getD {}

/-- Effective `counters` dict of a record (`{}` when absent). -/
def Record.ctrs (r : Record) : Counters :=
  r.metrics.counters.getD {}

/-- `counters.get("reconnects", 0)` for a record. -/
def cReconnects (r : Record) : Int :=
  r.ctrs.reconnects.getD 0

/-- `counters.get("errors", 0)` for a record. -/
def cErrors (r : Record) : Int :=
  r.ctrs.errors.getD 0

/-- `counters.get("messages", 0)` for a record. -/
def cMessages (r : Record) : Int :=
  r.ctrs.messages.getD 0

/-- `agg.get("count", 0)` for a record. -/
def cCount (r : Record) : Int :=
  r.agg.count.getD 0

/-- The aggregation state: one `ConfigMetrics` per key, total over keys (a key
never seen maps to the freshly-constructed empty `ConfigMetrics`, matching the
`if key not in metrics` initialisation). -/
def MetricsMap : Type :=
  String × String → ConfigMetrics

/-- The fresh `ConfigMetrics(region=..., instance_family=...)` made on first
sight of a key. -/
def emptyMetrics (k : String × String) : ConfigMetrics :=
  { region := k.1, instance_family := k.2 }

/-- The initial, empty aggregation state. -/
def initMap : MetricsMap :=
  fun k => emptyMetrics k

/-- The body of the `load_results` loop for one well-formed record: when
`aggregate.count > 0` append the four statistic values (each defaulting to 0
when its key is absent) to the key's sample sequences; merge the three
counters by `max` regardless of `count`. -/
def ingest (mm : MetricsMap) (r : Record) : MetricsMap :=
  fun k =>
    if k = r.key then
      let m := mm k
      let m1 :=
        if 0 < cCount r then
          { m with
            p50_samples := m.p50_samples ++ [r.agg.p50_us.getD 0]
            p99_samples := m.p99_samples ++ [r.agg.p99_us.getD 0]
            p999_samples := m.p999_samples ++ [r.agg.p999_us.getD 0]
            cv_samples := m.cv_samples ++ [r.agg.cv.getD 0] }
        else m
      { m1 with
        reconnects := max m1.reconnects (cReconnects r)
        errors := max m1.errors (cErrors r)
        message_count := max m1.message_count (cMessages r) }
    else mm k

/-- Aggregation of a sequence of well-formed records, in file order. -/
def loadRecords (rs : List Record) : MetricsMap :=
  rs.foldl ingest initMap

/-- One line of the results file, as seen by `load_results`.
`decodeError` is a line on which `json.loads` raises `JSONDecodeError` (the
only exception the loop catches); `badShape` is a line that decodes as JSON
but not to a usable record — a non-object such as `5`, or an object missing
one of the required keys `region` / `instance_family` / `metrics`, on which
the subscript accesses raise an uncaught `TypeError` / `KeyError`. -/
inductive LogLine
  | decodeError
  | badShape
  | entry (r : Record)
deriving DecidableEq

/-- The well-formed record carried by a line, if any. -/
def LogLine.getRec : LogLine → Option Record
  | .entry r => some r
  | _ => none

/-- Whether a line is a well-formed record line. -/
def LogLine.isRec : LogLine → Bool
  | .entry _ => true
  | _ => false

/-- The `load_results` line loop from a given aggregation state:
`decodeError` lines are caught and skipped with a warning; `badShape` lines
raise an uncaught exception, modelled as `Except.error`; record lines are
folded in. -/
def loadFrom : List LogLine → MetricsMap → Except Unit MetricsMap
  | [], mm => .ok mm
  | .decodeError :: rest, mm => loadFrom rest mm
  | .badShape :: _, _ => .error ()
  | .entry r :: rest, mm => loadFrom rest (ingest mm r)

/-- `load_results` from `analyze.py`: parse the file line by line and fold
records into the per-key aggregation. -/
def load_results (lines : List LogLine) : Except Unit MetricsMap :=
  loadFrom lines initMap

/-- `ProbeConfig` from `run_sweep.py`. -/
structure ProbeConfig where
  region : String
  instance_family : String
  instance_ip : String
  instance_id : String
  metrics_port : Int := 9090
deriving DecidableEq

/-- `SweepConfig` from `run_sweep.py` (durations are wall-clock quantities
consumed by `time.sleep` / deadline arithmetic; only the fields that shape the
observable result are used by the model). -/
structure SweepConfig where
  experiment_id : String
  warmup_sec : Int := 300
  measurement_sec : Int := 3600
  poll_interval_sec : Int := 60
  output_dir : String := "./results"
deriving DecidableEq

/-- The outcome of one health request to one probe: an HTTP response with a
status code, or a `requests.RequestException` (timeout, connection refused,
DNS failure). -/
inductive ProbeResponse
  | status (code : Int)
  | netError
deriving DecidableEq

/-- One probe's contribution to `all_healthy` in `wait_for_probes`: an
exception or a status other than 200 marks the sweep unhealthy. -/
def probeHealthy : ProbeResponse → Bool
  | .status c => c == 200
  | .netError => false

/-- Whether one poll sweep over the probe list found every probe healthy. -/
def sweepAllHealthy (sweep : List ProbeResponse) : Bool :=
  sweep.all probeHealthy

/-- `wait_for_probes` from `run_sweep.py`.  The wall-clock timeout admits a
finite sequence of poll sweeps; `sweeps` lists, for each sweep that runs
before the deadline, the response of each probe.  The gate returns `True` as
soon as one sweep is all-healthy and `False` when the deadline elapses
first. -/
def wait_for_probes (sweeps : List (List ProbeResponse)) : Bool :=
  sweeps.any sweepAllHealthy

/-- The record written by `run_collection` for one successful metrics fetch
(timestamp and elapsed seconds are wall-clock presentation fields, not used by
the analysis; identity and payload are kept). -/
def mkRecord (p : ProbeConfig) (payload : MetricsPayload) : Record :=
  { region := p.region
    instance_family := p.instance_family
    instance_id := p.instance_id
    metrics := payload }

/-- One round of the collection loop: for each probe, `collect_metrics`
either returns a payload (one record is appended to the log) or fails (a
warning is printed and the probe is skipped). -/
def roundRecords (probes : List ProbeConfig) (outcomes : List (Option MetricsPayload)) :
    List Record :=
  (probes.zip outcomes).filterMap (fun po => po.2.map (fun pl => mkRecord po.1 pl))

/-- The results-file path `output_dir / f"{experiment_id}_results.jsonl"`. -/
def results_path (cfg : SweepConfig) : String :=
  cfg.output_dir ++ "/" ++ cfg.experiment_id ++ "_results.jsonl"

/-- Observable outcome of `run_collection`: the records appended to the log
(in order) and the function's return value, which is the results-file path. -/
structure RunResult where
  written : List Record
  ret : String
deriving DecidableEq

/-- `run_collection` from `run_sweep.py`.  The wall-clock loop
`while time.time() < end_time` runs some finite number of rounds fixed by the
measurement duration and poll interval; `rounds` lists, for each round that
runs before the end time, the per-probe fetch outcomes.  Every successful
fetch of every round is appended to the log; the function returns the
results-file path. -/
def run_collection (cfg : SweepConfig) (probes : List ProbeConfig)
    (rounds : List (List (Option MetricsPayload))) : RunResult :=
  { written := (rounds.map (roundRecords probes)).flatten
    ret := results_path cfg }

/-- The ranked `scored` list produced by `analyze`: score every configuration
against the full set, then sort by `(not passes_constraints, score)`. -/
def analyze_ranking (ms : List ConfigMetrics) : List ScoredEntry :=
  sortScored (scoreConfigs ms)

/-- The recommendation `analyze`/`export_json` derive from the ranking. -/
def analyze_recommendation (ms : List ConfigMetrics) : Option ScoredEntry :=
  export_recommendation (analyze_ranking ms)

/-- Records of a given key, in file order (`recordsFor rs k` are the records
`load_results` folds into the `ConfigMetrics` at `k`). -/
def recordsFor (rs : List Record) (k : String × String) : List Record :=
  rs.filter (fun r => r.key = k)

/-- Equal-length invariant on the four sample sequences of a
`ConfigMetrics`. -/
def EqLens (c : ConfigMetrics) : Prop :=
  c.p50_samples.length = c.p99_samples.length
  ∧ c.p99_samples.length = c.p999_samples.length
  ∧ c.p999_samples.length = c.cv_samples.length

/-- Concrete configuration whose only cv sample is negative (used to probe the
normalisation bounds). -/
def cvNegA : ConfigMetrics :=
  { region := "r1", instance_family := "a", p99_samples := [1], cv_samples := [-1] }

/-- Concrete configuration with a positive cv sample. -/
def cvNegB : ConfigMetrics :=
  { region := "r1", instance_family := "b", p99_samples := [1], cv_samples := [2] }

/-- Concrete configuration with nonnegative samples for the unit-interval
witness. -/
def unitCfg : ConfigMetrics :=
  { region := "w", instance_family := "x", p99_samples := [100, 200],
    cv_samples := [2, 1] }

/-- Concrete configuration whose median p99 is above the 50,000 µs limit. -/
def slowCfg : ConfigMetrics :=
  { region := "w2", instance_family := "slow", p99_samples := [60000] }

/-- Concrete configuration with no p99 samples at all. -/
def noSamplesCfg : ConfigMetrics :=
  { region := "r0", instance_family := "empty" }

/-- Concrete configuration with exactly 4 p99 samples. -/
def fourCfg : ConfigMetrics :=
  { region := "r4", instance_family := "four", p99_samples := [1, 2, 3, 4] }

/-- Concrete configuration with exactly 5 p99 samples. -/
def fiveCfg : ConfigMetrics :=
  { region := "r5", instance_family := "five", p99_samples := [1, 2, 3, 4, 5] }

/-- Concrete well-formed log record. -/
def demoRec : Record :=
  { region := "eu", instance_family := "m5",
    metrics := { aggregate := some { count := some 3, p99_us := some 1200 },
                 counters := some { reconnects := some 1 } } }

/-- Concrete log with one malformed (JSON-decode-error) line and one
well-formed line. -/
def demoLog : List LogLine :=
  [LogLine.decodeError, LogLine.entry demoRec]

/-- Concrete record for the watermark witness: reconnects 3, errors 0. -/
def ctrRecX : Record :=
  { region := "eu", instance_family := "m5",
    metrics := { counters := some { reconnects := some 3 } } }

/-- Concrete record for the watermark witness: reconnects 1, errors 2. -/
def ctrRecY : Record :=
  { region := "eu", instance_family := "m5",
    metrics := { aggregate := some { count := some 1, p99_us := some 500 },
                 counters := some { reconnects := some 1, errors := some 2 } } }

/-- Concrete probe for the collection witness. -/
def wProbe : ProbeConfig :=
  { region := "eu", instance_family := "m5", instance_ip := "10.0.0.1",
    instance_id := "i-01" }

/-- Concrete sweep configuration for the collection witness. -/
def wCfg : SweepConfig :=
  { experiment_id := "exp1" }

/-- Two collection rounds in which the single probe answers both times. -/
def roundsTwoHits : List (List (Option MetricsPayload)) :=
  [[some {}], [some {}]]

/-- One collection round in which the single probe's fetch fails. -/
def roundsNoHit : List (List (Option MetricsPayload)) :=
  [[none]]

/-- Concrete record whose aggregate has `count = 1` but no `p99_us` key. -/
def gapRec : Record :=
  { region := "g", instance_family := "h",
    metrics := { aggregate := some { count := some 1 } } }

/-! ## Helper lemmas -/

lemma getD_mem_of_lt {α : Type} {l : List α} {i : ℕ} (h : i < l.length) (d : α) :
    l.getD i d ∈ l := by
  rw [List.getD_eq_getElem l d h]
  exact List.getElem_mem h

lemma foldl_min_le (xs : List ℚ) (a : ℚ) :
    xs.foldl min a ≤ a ∧ ∀ x ∈ xs, xs.foldl min a ≤ x := by
  induction xs generalizing a with
  | nil => simp
  | cons y ys ih =>
    simp only [List.foldl_cons]
    obtain ⟨h1, h2⟩ := ih (min a y)
    refine ⟨h1.trans (min_le_left a y), ?_⟩
    intro x hx
    rcases List.mem_cons.mp hx with rfl | hx
    · exact h1.trans (min_le_right a x)
    · exact h2 x hx

lemma foldl_max_ge {α : Type} [LinearOrder α] (xs : List α) (a : α) :
    a ≤ xs.foldl max a ∧ ∀ x ∈ xs, x ≤ xs.foldl max a := by
  induction xs generalizing a with
  | nil => simp
  | cons y ys ih =>
    simp only [List.foldl_cons]
    obtain ⟨h1, h2⟩ := ih (max a y)
    refine ⟨(le_max_left a y).trans h1, ?_⟩
    intro x hx
    rcases List.mem_cons.mp hx with rfl | hx
    · exact (le_max_right a x).trans h1
    · exact h2 x hx

lemma foldl_max_mem {α : Type} [LinearOrder α] (xs : List α) (a : α) :
    xs.foldl max a = a ∨ xs.foldl max a ∈ xs := by
  induction xs generalizing a with
  | nil => exact Or.inl rfl
  | cons y ys ih =>
    simp only [List.foldl_cons]
    rcases ih (max a y) with h | h
    · rcases le_total a y with hy | hy
      · right
        rw [h, max_eq_right hy]
        exact List.mem_cons_self y ys
      · left
        rw [h, max_eq_left hy]
    · exact Or.inr (List.mem_cons_of_mem y h)

lemma foldl_max_perm {α : Type} [LinearOrder α] {l1 l2 : List α} (h : l1.Perm l2) :
    ∀ a, l1.foldl max a = l2.foldl max a := by
  induction h with
  | nil => exact fun a => rfl
  | cons x _ ih =>
    intro a
    simp only [List.foldl_cons]
    exact ih _
  | swap x y l =>
    intro a
    simp only [List.foldl_cons]
    rw [max_assoc, max_comm y x, ← max_assoc]
  | trans _ _ ih1 ih2 => exact fun a => (ih1 a).trans (ih2 a)

lemma listMin_le {l : List ℚ} {x : ℚ} (hx : x ∈ l) : listMin l ≤ x := by
  cases l with
  | nil => cases hx
  | cons y ys =>
    show ys.foldl min y ≤ x
    rcases List.mem_cons.mp hx with rfl | hx
    · exact (foldl_min_le ys x).1
    · exact (foldl_min_le ys y).2 x hx

lemma le_listMax {l : List ℚ} {x : ℚ} (hx : x ∈ l) : x ≤ listMax l := by
  cases l with
  | nil => cases hx
  | cons y ys =>
    show x ≤ ys.foldl max y
    rcases List.mem_cons.mp hx with rfl | hx
    · exact (foldl_max_ge ys x).1
    · exact (foldl_max_ge ys y).2 x hx

lemma medianQ_nonneg {l : List ℚ} (hne : l ≠ []) (h : ∀ x ∈ l, 0 ≤ x) :
    0 ≤ medianQ l := by
  have hperm := List.perm_insertionSort (fun a b : ℚ => a ≤ b) l
  have hlen : (l.insertionSort (fun a b => a ≤ b)).length = l.length := hperm.length_eq
  have hmem : ∀ x ∈ l.insertionSort (fun a b => a ≤ b), 0 ≤ x :=
    fun x hx => h x (hperm.mem_iff.mp hx)
  have hpos : 0 < l.length := List.length_pos.mpr hne
  unfold medianQ
  split_ifs with hodd
  · exact hmem _ (getD_mem_of_lt (by omega) 0)
  · have h1 : 0 ≤ (l.insertionSort (fun a b => a ≤ b)).getD (l.length / 2 - 1) 0 :=
      hmem _ (getD_mem_of_lt (by omega) 0)
    have h2 : 0 ≤ (l.insertionSort (fun a b => a ≤ b)).getD (l.length / 2) 0 :=
      hmem _ (getD_mem_of_lt (by omega) 0)
    positivity

lemma mem_scoreConfigs {ms : List ConfigMetrics} {e : ScoredEntry}
    (he : e ∈ scoreConfigs ms) :
    e.metrics ∈ ms ∧ e.score = compute_score e.metrics ms
    ∧ e.passes_constraints = (check_hard_constraints e.metrics).1
    ∧ e.violations = (check_hard_constraints e.metrics).2 := by
  unfold scoreConfigs at he
  obtain ⟨m, hm, rfl⟩ := List.mem_map.mp he
  exact ⟨hm, rfl, rfl, rfl⟩

lemma perm_analyze_ranking (ms : List ConfigMetrics) :
    (analyze_ranking ms).Perm (scoreConfigs ms) :=
  List.perm_insertionSort rankLe (scoreConfigs ms)

lemma sorted_analyze_ranking (ms : List ConfigMetrics) :
    List.Sorted rankLe (analyze_ranking ms) :=
  List.sorted_insertionSort rankLe (scoreConfigs ms)

lemma mem_analyze_ranking {ms : List ConfigMetrics} {e : ScoredEntry}
    (he : e ∈ analyze_ranking ms) : e ∈ scoreConfigs ms :=
  (perm_analyze_ranking ms).mem_iff.mp he

lemma failFlag_eq_zero {e : ScoredEntry} :
    failFlag e = 0 ↔ e.passes_constraints = true := by
  unfold failFlag
  cases h : e.passes_constraints <;> simp

lemma check_fails_of_reconnects {m : ConfigMetrics} (h : 1 < m.reconnects) :
    (check_hard_constraints m).1 = false := by
  unfold check_hard_constraints
  split_ifs <;> simp_all

lemma check_no_data {m : ConfigMetrics} (h0 : m.p99_samples = []) :
    check_hard_constraints m = (false, [Violation.noData]) := by
  unfold check_hard_constraints
  rw [if_pos h0]

lemma compute_score_no_data {m : ConfigMetrics} (h0 : m.p99_samples = []) :
    ∀ ms, compute_score m ms = ⊤ := by
  intro ms
  unfold compute_score
  rw [if_pos h0]

lemma medianQ_mem_allP99 {m : ConfigMetrics} {ms : List ConfigMetrics}
    (hmem : m ∈ ms) (hp : m.p99_samples ≠ []) :
    medianQ m.p99_samples ∈ allP99 ms := by
  unfold allP99
  exact List.mem_map.mpr
    ⟨m, List.mem_filter.mpr ⟨hmem, by simp [List.isEmpty_iff, hp]⟩, rfl⟩

lemma medianQ_mem_allCv {m : ConfigMetrics} {ms : List ConfigMetrics}
    (hmem : m ∈ ms) (hcv : m.cv_samples ≠ []) :
    medianQ m.cv_samples ∈ allCv ms := by
  unfold allCv
  exact List.mem_map.mpr
    ⟨m, List.mem_filter.mpr ⟨hmem, by simp [List.isEmpty_iff, hcv]⟩, rfl⟩

lemma compute_score_eq_coe {m : ConfigMetrics} {ms : List ConfigMetrics}
    (hmem : m ∈ ms) (hp : m.p99_samples ≠ []) (hcv : m.cv_samples ≠ []) :
    compute_score m ms =
      ((7 / 10 * normP99 m ms + 3 / 10 * normCv m ms : ℚ) : WithTop ℚ) := by
  have h1 : allP99 ms ≠ [] :=
    List.ne_nil_of_mem (medianQ_mem_allP99 hmem hp)
  have h2 : allCv ms ≠ [] :=
    List.ne_nil_of_mem (medianQ_mem_allCv hmem hcv)
  unfold compute_score
  rw [if_neg hp, if_neg (not_or.mpr ⟨h1, h2⟩)]

lemma compute_score_lt_top {m : ConfigMetrics} {ms : List ConfigMetrics}
    (hmem : m ∈ ms) (hp : m.p99_samples ≠ []) (hcv : m.cv_samples ≠ []) :
    compute_score m ms < ⊤ := by
  rw [compute_score_eq_coe hmem hp hcv]
  exact WithTop.coe_lt_top _

lemma allP99_skips_empty (ms1 ms2 : List ConfigMetrics) {m : ConfigMetrics}
    (h : m.p99_samples = []) :
    allP99 (ms1 ++ m :: ms2) = allP99 (ms1 ++ ms2) := by
  unfold allP99
  rw [List.filter_append, List.filter_append, List.filter_cons]
  simp [h]

lemma allCv_skips_empty (ms1 ms2 : List ConfigMetrics) {m : ConfigMetrics}
    (h : m.cv_samples = []) :
    allCv (ms1 ++ m :: ms2) = allCv (ms1 ++ ms2) := by
  unfold allCv
  rw [List.filter_append, List.filter_append, List.filter_cons]
  simp [h]

lemma ingest_counters (mm : MetricsMap) (r : Record) (k : String × String) :
    ((ingest mm r) k).reconnects =
      (if k = r.key then max ((mm k).reconnects) (cReconnects r) else (mm k).reconnects)
    ∧ ((ingest mm r) k).errors =
      (if k = r.key then max ((mm k).errors) (cErrors r) else (mm k).errors)
    ∧ ((ingest mm r) k).message_count =
      (if k = r.key then max ((mm k).message_count) (cMessages r) else (mm k).message_count) := by
  unfold ingest
  split_ifs with hk hc <;> exact ⟨rfl, rfl, rfl⟩

lemma ingest_samples_pos (mm : MetricsMap) (r : Record) (hc : 0 < cCount r) :
    ((ingest mm r) r.key).p50_samples = (mm r.key).p50_samples ++ [r.agg.p50_us.getD 0]
    ∧ ((ingest mm r) r.key).p99_samples = (mm r.key).p99_samples ++ [r.agg.p99_us.getD 0]
    ∧ ((ingest mm r) r.key).p999_samples = (mm r.key).p999_samples ++ [r.agg.p999_us.getD 0]
    ∧ ((ingest mm r) r.key).cv_samples = (mm r.key).cv_samples ++ [r.agg.cv.getD 0] := by
  simp [ingest, hc]

lemma ingest_eqlens (mm : MetricsMap) (r : Record) (h : ∀ k, EqLens (mm k)) :
    ∀ k, EqLens ((ingest mm r) k) := by
  intro k
  unfold ingest
  split_ifs with hk hc
  · obtain ⟨h1, h2, h3⟩ := h k
    exact ⟨by simp [h1], by simp [h2], by simp [h3]⟩
  · exact h k
  · exact h k

lemma foldl_ingest_eqlens (rs : List Record) (mm : MetricsMap)
    (h : ∀ k, EqLens (mm k)) : ∀ k, EqLens ((rs.foldl ingest mm) k) := by
  induction rs generalizing mm with
  | nil => exact h
  | cons r rest ih =>
    simp only [List.foldl_cons]
    exact ih (ingest mm r) (ingest_eqlens mm r h)

lemma initMap_eqlens : ∀ k, EqLens (initMap k) :=
  fun _ => ⟨rfl, rfl, rfl⟩

lemma recordsFor_cons (r : Record) (rest : List Record) (k : String × String) :
    recordsFor (r :: rest) k =
      (if r.key = k then r :: recordsFor rest k else recordsFor rest k) := by
  unfold recordsFor
  rw [List.filter_cons]
  by_cases hk : r.key = k
  · simp [hk]
  · simp [hk]

lemma foldl_ingest_reconnects (rs : List Record) (mm : MetricsMap) (k : String × String) :
    ((rs.foldl ingest mm) k).reconnects =
      ((recordsFor rs k).map cReconnects).foldl max ((mm k).reconnects) := by
  induction rs generalizing mm with
  | nil => rfl
  | cons r rest ih =>
    simp only [List.foldl_cons]
    rw [ih, recordsFor_cons]
    by_cases hk : r.key = k
    · rw [if_pos hk, (ingest_counters mm r k).1, if_pos hk.symm]
      simp [hk]
    · rw [if_neg hk, (ingest_counters mm r k).1,
        if_neg (fun hkk => hk hkk.symm)]

lemma foldl_ingest_errors (rs : List Record) (mm : MetricsMap) (k : String × String) :
    ((rs.foldl ingest mm) k).errors =
      ((recordsFor rs k).map cErrors).foldl max ((mm k).errors) := by
  induction rs generalizing mm with
  | nil => rfl
  | cons r rest ih =>
    simp only [List.foldl_cons]
    rw [ih, recordsFor_cons]
    by_cases hk : r.key = k
    · rw [if_pos hk, (ingest_counters mm r k).2.1, if_pos hk.symm]
      simp [hk]
    · rw [if_neg hk, (ingest_counters mm r k).2.1,
        if_neg (fun hkk => hk hkk.symm)]

lemma foldl_ingest_messages (rs : List Record) (mm : MetricsMap) (k : String × String) :
    ((rs.foldl ingest mm) k).message_count =
      ((recordsFor rs k).map cMessages).foldl max ((mm k).message_count) := by
  induction rs generalizing mm with
  | nil => rfl
  | cons r rest ih =>
    simp only [List.foldl_cons]
    rw [ih, recordsFor_cons]
    by_cases hk : r.key = k
    · rw [if_pos hk, (ingest_counters mm r k).2.2, if_pos hk.symm]
      simp [hk]
    · rw [if_neg hk, (ingest_counters mm r k).2.2,
        if_neg (fun hkk => hk hkk.symm)]

lemma watermark_char {vals : List Int} (hne : vals ≠ [])
    (hnn : ∀ v ∈ vals, 0 ≤ v) :
    vals.foldl max 0 ∈ vals ∧ ∀ v ∈ vals, v ≤ vals.foldl max 0 := by
  have t := foldl_max_ge vals (0 : Int)
  rcases foldl_max_mem vals (0 : Int) with h | h
  · cases vals with
    | nil => exact absurd rfl hne
    | cons v vs =>
      have hv0 : v ≤ 0 := by
        have := t.2 v (List.mem_cons_self v vs)
        rw [h] at this
        exact this
      have hv : v = 0 := le_antisymm hv0 (hnn v (List.mem_cons_self v vs))
      constructor
      · rw [h, ← hv]
        exact List.mem_cons_self v vs
      · exact t.2
  · exact ⟨h, t.2⟩

lemma loadFrom_ok (lines : List LogLine) (mm : MetricsMap)
    (h : LogLine.badShape ∉ lines) :
    loadFrom lines mm = Except.ok ((lines.filterMap LogLine.getRec).foldl ingest mm) := by
  induction lines generalizing mm with
  | nil => rfl
  | cons l rest ih =>
    have hrest : LogLine.badShape ∉ rest := fun hc => h (List.mem_cons_of_mem l hc)
    cases l with
    | decodeError =>
      show loadFrom rest mm = _
      rw [ih mm hrest]
      rfl
    | badShape => exact absurd (List.mem_cons_self _ _) h
    | entry r =>
      show loadFrom rest (ingest mm r) = _
      rw [ih (ingest mm r) hrest]
      rfl

lemma filterMap_filter_isRec (lines : List LogLine) :
    (lines.filter LogLine.isRec).filterMap LogLine.getRec =
      lines.filterMap LogLine.getRec := by
  induction lines with
  | nil => rfl
  | cons l rest ih =>
    cases l <;>
      simp [LogLine.isRec, LogLine.getRec, List.filter_cons, List.filterMap_cons, ih]

lemma badShape_not_mem_filter (lines : List LogLine) :
    LogLine.badShape ∉ lines.filter LogLine.isRec := by
  intro hc
  have := (List.mem_filter.mp hc).2
  simp [LogLine.isRec] at this

lemma filterMap_round_length (l : List (ProbeConfig × Option MetricsPayload)) :
    (l.filterMap (fun po => po.2.map (fun pl => mkRecord po.1 pl))).length =
      (l.filter (fun po => po.2.isSome)).length := by
  induction l with
  | nil => rfl
  | cons po rest ih =>
    obtain ⟨p, o⟩ := po
    cases o <;> simp [List.filterMap_cons, List.filter_cons, ih]

/-! ## Claim theorems -/

/-- Claim C2: for a configuration with at least one p99 sample, the hard
constraints fail exactly when the median p99 exceeds 50,000 µs, or the
reconnect watermark exceeds 1, or both the median p99 and the median p999
(taken as 0 when there are no p999 samples) are positive and their ratio
exceeds 3; when either median is not positive the ratio constraint is
skipped. -/
theorem constraints_fail_iff (m : ConfigMetrics) (hp : m.p99_samples ≠ []) :
    (check_hard_constraints m).1 = false ↔
      (50000 < medianQ m.p99_samples ∨ 1 < m.reconnects ∨
        (0 < medianQ m.p99_samples
          ∧ 0 < (if m.p999_samples = [] then (0 : ℚ) else medianQ m.p999_samples)
          ∧ 3 < (if m.p999_samples = [] then (0 : ℚ) else medianQ m.p999_samples) /
              medianQ m.p99_samples)) := by
  unfold check_hard_constraints
  rw [if_neg hp]
  by_cases h1 : 50000 < medianQ m.p99_samples <;>
    by_cases h2 : 1 < m.reconnects <;>
      by_cases h3 : 0 < medianQ m.p99_samples
          ∧ 0 < (if m.p999_samples = [] then (0 : ℚ) else medianQ m.p999_samples)
          ∧ 3 < (if m.p999_samples = [] then (0 : ℚ) else medianQ m.p999_samples) /
              medianQ m.p99_samples <;>
        simp [h1, h2, h3]

/-- Witness for C2 at a concrete slow configuration. -/
theorem constraints_fail_iff_witness : (check_hard_constraints slowCfg).1 = false :=
  (constraints_fail_iff slowCfg (by decide)).mpr (Or.inl (by decide))

/-- Claim C5 (amended): when both p99 sample sequences are nonempty and either
has fewer than 5 points, the comparator returns the structured
insufficient-samples error; when either sequence is empty it returns the
absent result (`None`), likewise not a p-value. -/
theorem comparison_insufficient (m1 m2 : ConfigMetrics) :
    (m1.p99_samples ≠ [] → m2.p99_samples ≠ [] →
      (m1.p99_samples.length < 5 ∨ m2.p99_samples.length < 5) →
      statistical_comparison m1 m2 =
        some (CompOutcome.error "insufficient samples for statistical comparison"))
    ∧ ((m1.p99_samples = [] ∨ m2.p99_samples = []) →
      statistical_comparison m1 m2 = none) := by
  constructor
  · intro h1 h2 hlt
    unfold statistical_comparison
    rw [if_neg (not_or.mpr ⟨h1, h2⟩), if_pos hlt]
  · intro h
    unfold statistical_comparison
    rw [if_pos h]

/-- Counterexample for C5 as stated: with an empty sequence the comparator
returns `None`, not the structured insufficient-samples result. -/
theorem comparison_empty_not_structured :
    statistical_comparison noSamplesCfg fiveCfg = none
    ∧ statistical_comparison noSamplesCfg fiveCfg ≠
        some (CompOutcome.error "insufficient samples for statistical comparison") := by
  decide

/-- Witness for C5 (scenario C): two configurations with exactly 4 p99 samples
each get the structured insufficient-samples result. -/
theorem comparison_insufficient_witness :
    statistical_comparison fourCfg fourCfg =
      some (CompOutcome.error "insufficient samples for statistical comparison") :=
  (comparison_insufficient fourCfg fourCfg).1 (by decide) (by decide) (Or.inl (by decide))

/-- Claim C8 (amended): the health gate returns ready exactly when some poll
sweep before the deadline has every probe answering with HTTP status 200
(not any 2xx); a network error is treated exactly like a non-success
status. -/
theorem gate_ready_iff (sweeps : List (List ProbeResponse)) :
    (wait_for_probes sweeps = true ↔
      ∃ sweep ∈ sweeps, ∀ r ∈ sweep, r = ProbeResponse.status 200)
    ∧ probeHealthy ProbeResponse.netError = false
    ∧ probeHealthy (ProbeResponse.status 503) = false := by
  refine ⟨?_, rfl, rfl⟩
  unfold wait_for_probes sweepAllHealthy
  rw [List.any_eq_true]
  constructor
  · rintro ⟨sw, hmem, hall⟩
    rw [List.all_eq_true] at hall
    refine ⟨sw, hmem, fun r hr => ?_⟩
    have hh := hall r hr
    cases r with
    | status c =>
      unfold probeHealthy at hh
      rw [beq_iff_eq] at hh
      rw [hh]
    | netError => simp [probeHealthy] at hh
  · rintro ⟨sw, hmem, hall⟩
    refine ⟨sw, hmem, List.all_eq_true.mpr fun r hr => ?_⟩
    rw [hall r hr]
    rfl

/-- Counterexample for C8 as stated: a probe answering 204 — a 2xx success
status — is not accepted by the gate, which requires exactly 200. -/
theorem gate_not_ready_on_204 :
    wait_for_probes [[ProbeResponse.status 204]] = false
    ∧ 200 ≤ (204 : Int) ∧ (204 : Int) < 300 := by
  decide

/-- Witness for C8: a sweep with a network error followed by an all-200 sweep
makes the gate ready. -/
theorem gate_ready_iff_witness :
    wait_for_probes
      [[ProbeResponse.netError, ProbeResponse.status 200],
        [ProbeResponse.status 200, ProbeResponse.status 200]] = true :=
  (gate_ready_iff
    [[ProbeResponse.netError, ProbeResponse.status 200],
      [ProbeResponse.status 200, ProbeResponse.status 200]]).1.mpr
    ⟨[ProbeResponse.status 200, ProbeResponse.status 200], by decide, by decide⟩

/-- Claim C9 (amended): the collection loop processes every round the
measurement window admits — writing one record per successful fetch, with the
written count equal to the total number of successes, unbounded by any target
record count — and returns the results-file path; the record count is printed
but not part of the return value. -/
theorem collection_time_bounded (cfg : SweepConfig) (probes : List ProbeConfig)
    (rounds : List (List (Option MetricsPayload))) :
    (run_collection cfg probes rounds).ret = results_path cfg
    ∧ (run_collection cfg probes rounds).written =
        (rounds.map (roundRecords probes)).flatten
    ∧ (run_collection cfg probes rounds).written.length =
        (rounds.map
          (fun os => ((probes.zip os).filter (fun po => po.2.isSome)).length)).sum := by
  refine ⟨rfl, rfl, ?_⟩
  show ((rounds.map (roundRecords probes)).flatten).length = _
  rw [List.length_flatten, List.map_map]
  refine congrArg List.sum (List.map_congr_left fun os hos => ?_)
  show (roundRecords probes os).length = _
  unfold roundRecords
  exact filterMap_round_length (probes.zip os)

/-- Counterexample for C9 as stated: two runs that write different numbers of
records return identical values — the return value is the path alone and does
not carry the count. -/
theorem collection_no_count_in_return :
    (run_collection wCfg [wProbe] roundsTwoHits).ret =
      (run_collection wCfg [wProbe] roundsNoHit).ret
    ∧ (run_collection wCfg [wProbe] roundsTwoHits).written.length = 2
    ∧ (run_collection wCfg [wProbe] roundsNoHit).written.length = 0 := by
  decide

/-- Claim C10: for a record with `aggregate.count > 0` the loader appends one
value to each of the four sample sequences of the record's key, substituting 0
for any missing field; consequently the four sequences of every aggregated
`ConfigMetrics` always have equal length. -/
theorem loader_zero_fill_equal_lengths :
    (∀ (mm : MetricsMap) (r : Record), 0 < cCount r →
      ((ingest mm r) r.key).p50_samples = (mm r.key).p50_samples ++ [r.agg.p50_us.getD 0]
      ∧ ((ingest mm r) r.key).p99_samples = (mm r.key).p99_samples ++ [r.agg.p99_us.getD 0]
      ∧ ((ingest mm r) r.key).p999_samples =
          (mm r.key).p999_samples ++ [r.agg.p999_us.getD 0]
      ∧ ((ingest mm r) r.key).cv_samples = (mm r.key).cv_samples ++ [r.agg.cv.getD 0])
    ∧ (∀ (rs : List Record) (k : String × String), EqLens (loadRecords rs k)) := by
  constructor
  · exact fun mm r hc => ingest_samples_pos mm r hc
  · exact fun rs k => foldl_ingest_eqlens rs initMap initMap_eqlens k

/-- Witness for C10: a record with `count = 1` and no `p99_us` key inserts a
literal 0 into the p99 sample history. -/
theorem loader_zero_fill_witness :
    0 < cCount gapRec
    ∧ (ingest initMap gapRec gapRec.key).p99_samples = [(0 : ℚ)] := by
  refine ⟨by decide, ?_⟩
  have h := loader_zero_fill_equal_lengths.1 initMap gapRec (by decide)
  rw [h.2.1]
  rfl

/-- Claim C6 (amended): in a file whose lines all either raise a JSON decode
error or decode to well-formed records, every decode-error line is skipped and
is not fatal, and the load equals the load of the same file with the
malformed lines removed; a line that decodes as JSON but not to a usable
record (a non-object, or an object missing a required key) instead aborts the
load. -/
theorem load_isolates_malformed (lines : List LogLine)
    (h : LogLine.badShape ∉ lines) :
    load_results lines = Except.ok (loadRecords (lines.filterMap LogLine.getRec))
    ∧ load_results (lines.filter LogLine.isRec) =
        Except.ok (loadRecords (lines.filterMap LogLine.getRec)) := by
  constructor
  · exact loadFrom_ok lines initMap h
  · have h2 := loadFrom_ok (lines.filter LogLine.isRec) initMap
      (badShape_not_mem_filter lines)
    rw [filterMap_filter_isRec] at h2
    exact h2

/-- Counterexample for C6 as stated: a line that parses as JSON but not as a
record object (such as the line `5`) is fatal to the load — the uncaught
exception aborts it — rather than being skipped. -/
theorem load_fatal_on_nonobject :
    load_results [LogLine.badShape] = Except.error () := rfl

/-- Witness for C6 on a concrete log with one malformed line and one record
line. -/
theorem load_isolates_witness :
    load_results demoLog = Except.ok (loadRecords (demoLog.filterMap LogLine.getRec)) :=
  (load_isolates_malformed demoLog (by decide)).1

/-- Claim C7: the three per-key counters are watermark-maxima — after
ingesting records in any order the result is the same, it is the maximum of
the values the records for that key report (with nonnegative lifetime
counters, absent fields reading as 0), it is independent of each record's
`aggregate` payload (hence of `aggregate.count`). -/
theorem counters_watermark (rs rsPerm : List Record) (k : String × String)
    (hperm : rs.Perm rsPerm)
    (hnn : ∀ r ∈ rs, 0 ≤ cReconnects r ∧ 0 ≤ cErrors r ∧ 0 ≤ cMessages r) :
    ((loadRecords rs k).reconnects = (loadRecords rsPerm k).reconnects
      ∧ (loadRecords rs k).errors = (loadRecords rsPerm k).errors
      ∧ (loadRecords rs k).message_count = (loadRecords rsPerm k).message_count)
    ∧ (recordsFor rs k ≠ [] →
        ((loadRecords rs k).reconnects ∈ (recordsFor rs k).map cReconnects
          ∧ ∀ v ∈ (recordsFor rs k).map cReconnects, v ≤ (loadRecords rs k).reconnects)
        ∧ ((loadRecords rs k).errors ∈ (recordsFor rs k).map cErrors
          ∧ ∀ v ∈ (recordsFor rs k).map cErrors, v ≤ (loadRecords rs k).errors)
        ∧ ((loadRecords rs k).message_count ∈ (recordsFor rs k).map cMessages
          ∧ ∀ v ∈ (recordsFor rs k).map cMessages,
              v ≤ (loadRecords rs k).message_count))
    ∧ (∀ (mm : MetricsMap) (r : Record) (agg : Option Aggregate) (k2 : String × String),
        ((ingest mm r) k2).reconnects =
          ((ingest mm { r with metrics := { r.metrics with aggregate := agg } }) k2).reconnects
        ∧ ((ingest mm r) k2).errors =
          ((ingest mm { r with metrics := { r.metrics with aggregate := agg } }) k2).errors
        ∧ ((ingest mm r) k2).message_count =
          ((ingest mm { r with metrics := { r.metrics with aggregate := agg } }) k2).message_count) := by
  have hR : (loadRecords rs k).reconnects =
      ((recordsFor rs k).map cReconnects).foldl max 0 :=
    foldl_ingest_reconnects rs initMap k
  have hE : (loadRecords rs k).errors = ((recordsFor rs k).map cErrors).foldl max 0 :=
    foldl_ingest_errors rs initMap k
  have hM : (loadRecords rs k).message_count =
      ((recordsFor rs k).map cMessages).foldl max 0 :=
    foldl_ingest_messages rs initMap k
  have hpf : (recordsFor rs k).Perm (recordsFor rsPerm k) := hperm.filter _
  have hRp : (loadRecords rsPerm k).reconnects =
      ((recordsFor rsPerm k).map cReconnects).foldl max 0 :=
    foldl_ingest_reconnects rsPerm initMap k
  have hEp : (loadRecords rsPerm k).errors =
      ((recordsFor rsPerm k).map cErrors).foldl max 0 :=
    foldl_ingest_errors rsPerm initMap k
  have hMp : (loadRecords rsPerm k).message_count =
      ((recordsFor rsPerm k).map cMessages).foldl max 0 :=
    foldl_ingest_messages rsPerm initMap k
  refine ⟨⟨?_, ?_, ?_⟩, ?_, ?_⟩
  · rw [hR, hRp]
    exact foldl_max_perm (hpf.map cReconnects) 0
  · rw [hE, hEp]
    exact foldl_max_perm (hpf.map cErrors) 0
  · rw [hM, hMp]
    exact foldl_max_perm (hpf.map cMessages) 0
  · intro hne
    have hsub : ∀ r ∈ recordsFor rs k, r ∈ rs := fun r hr => (List.mem_filter.mp hr).1
    have hneR : (recordsFor rs k).map cReconnects ≠ [] := by
      simpa [List.map_eq_nil_iff] using hne
    have hneE : (recordsFor rs k).map cErrors ≠ [] := by
      simpa [List.map_eq_nil_iff] using hne
    have hneM : (recordsFor rs k).map cMessages ≠ [] := by
      simpa [List.map_eq_nil_iff] using hne
    have hnnR : ∀ v ∈ (recordsFor rs k).map cReconnects, 0 ≤ v := by
      intro v hv
      obtain ⟨r, hr, rfl⟩ := List.mem_map.mp hv
      exact (hnn r (hsub r hr)).1
    have hnnE : ∀ v ∈ (recordsFor rs k).map cErrors, 0 ≤ v := by
      intro v hv
      obtain ⟨r, hr, rfl⟩ := List.mem_map.mp hv
      exact (hnn r (hsub r hr)).2.1
    have hnnM : ∀ v ∈ (recordsFor rs k).map cMessages, 0 ≤ v := by
      intro v hv
      obtain ⟨r, hr, rfl⟩ := List.mem_map.mp hv
      exact (hnn r (hsub r hr)).2.2
    rw [hR, hE, hM]
    exact ⟨watermark_char hneR hnnR, watermark_char hneE hnnE, watermark_char hneM hnnM⟩
  · intro mm r agg k2
    have h1 := ingest_counters mm r k2
    have h2 := ingest_counters mm { r with metrics := { r.metrics with aggregate := agg } } k2
    rw [h1.1, h1.2.1, h1.2.2, h2.1, h2.2.1, h2.2.2]
    exact ⟨rfl, rfl, rfl⟩

/-- Witness for C7 on two concrete records ingested in both orders. -/
theorem counters_watermark_witness :
    (loadRecords [ctrRecX, ctrRecY] ("eu", "m5")).reconnects =
      (loadRecords [ctrRecY, ctrRecX] ("eu", "m5")).reconnects :=
  (counters_watermark [ctrRecX, ctrRecY] [ctrRecY, ctrRecX] ("eu", "m5")
    (by decide) (by decide)).1.1

/-- Claim C4 (amended): for a member of the set with at least one p99 sample
and at least one cv sample, all of whose cv samples are nonnegative, the
normalised values and the score all lie in `[0, 1]`. -/
theorem score_unit_interval (ms : List ConfigMetrics) (m : ConfigMetrics)
    (hmem : m ∈ ms) (hp : m.p99_samples ≠ []) (hcv : m.cv_samples ≠ [])
    (hnn : ∀ x ∈ m.cv_samples, 0 ≤ x) :
    (0 ≤ normP99 m ms ∧ normP99 m ms ≤ 1)
    ∧ (0 ≤ normCv m ms ∧ normCv m ms ≤ 1)
    ∧ ((0 : WithTop ℚ) ≤ compute_score m ms ∧ compute_score m ms ≤ (1 : WithTop ℚ)) := by
  have hmP : medianQ m.p99_samples ∈ allP99 ms := medianQ_mem_allP99 hmem hp
  have hmC : medianQ m.cv_samples ∈ allCv ms := medianQ_mem_allCv hmem hcv
  have hnp : 0 ≤ normP99 m ms ∧ normP99 m ms ≤ 1 := by
    unfold normP99
    split_ifs with hlt
    · have h1 : listMin (allP99 ms) ≤ medianQ m.p99_samples := listMin_le hmP
      have h2 : medianQ m.p99_samples ≤ listMax (allP99 ms) := le_listMax hmP
      constructor
      · exact div_nonneg (by linarith) (by linarith)
      · rw [div_le_one (by linarith)]
        linarith
    · norm_num
  have hnc : 0 ≤ normCv m ms ∧ normCv m ms ≤ 1 := by
    unfold normCv
    split_ifs with hlt
    · have h2 : medianQ m.cv_samples ≤ listMax (allCv ms) := le_listMax hmC
      have h0 : 0 ≤ medianQ m.cv_samples := medianQ_nonneg hcv hnn
      constructor
      · exact div_nonneg h0 (le_of_lt hlt)
      · rw [div_le_one hlt]
        exact h2
    · norm_num
  refine ⟨hnp, hnc, ?_⟩
  rw [compute_score_eq_coe hmem hp hcv]
  constructor
  · exact_mod_cast (by linarith [hnp.1, hnc.1] :
      (0 : ℚ) ≤ 7 / 10 * normP99 m ms + 3 / 10 * normCv m ms)
  · exact_mod_cast (by linarith [hnp.2, hnc.2] :
      7 / 10 * normP99 m ms + 3 / 10 * normCv m ms ≤ (1 : ℚ))

/-- Counterexample for C4 as stated: a configuration whose only cv sample is
negative gets a normalised cv of -1/2 and a score of -3/20, both outside
`[0, 1]`. -/
theorem norm_cv_out_of_range :
    normCv cvNegA [cvNegA, cvNegB] = -1 / 2
    ∧ ¬ (0 ≤ normCv cvNegA [cvNegA, cvNegB])
    ∧ compute_score cvNegA [cvNegA, cvNegB] = ((-3 / 20 : ℚ) : WithTop ℚ)
    ∧ ¬ ((0 : WithTop ℚ) ≤ compute_score cvNegA [cvNegA, cvNegB]) := by
  with_unfolding_all decide

/-- Witness for C4's amended claim at a concrete configuration. -/
theorem score_unit_interval_witness :
    0 ≤ normCv unitCfg [unitCfg] ∧ normCv unitCfg [unitCfg] ≤ 1 :=
  (score_unit_interval [unitCfg] unitCfg (by decide) (by decide) (by decide)
    (by decide)).2.1

/-- Claim C3: a configuration with zero p99 samples always fails the
constraints with the distinct no-data reason, scores positive infinity, is
excluded from the normalisation set used to score other configurations, and
sorts after every configuration that has samples (with a cv history, as the
loader guarantees for every configuration with samples). -/
theorem no_data_fails_and_sorts_last (m : ConfigMetrics)
    (h0 : m.p99_samples = []) (hcv : m.cv_samples = []) :
    check_hard_constraints m = (false, [Violation.noData])
    ∧ (∀ ms, compute_score m ms = ⊤)
    ∧ (∀ (mo : ConfigMetrics) (ms1 ms2 : List ConfigMetrics),
        compute_score mo (ms1 ++ m :: ms2) = compute_score mo (ms1 ++ ms2))
    ∧ (∀ (ms : List ConfigMetrics) (i j : Fin (analyze_ranking ms).length),
        ((analyze_ranking ms).get i).metrics = m →
        ((analyze_ranking ms).get j).metrics.p99_samples ≠ [] →
        ((analyze_ranking ms).get j).metrics.cv_samples ≠ [] →
        (j : ℕ) < (i : ℕ)) := by
  refine ⟨check_no_data h0, compute_score_no_data h0, ?_, ?_⟩
  · intro mo ms1 ms2
    unfold compute_score normP99 normCv
    rw [allP99_skips_empty ms1 ms2 h0, allCv_skips_empty ms1 ms2 hcv]
  · intro ms i j hmi hjp hjc
    have hmemI : (analyze_ranking ms).get i ∈ analyze_ranking ms :=
      (analyze_ranking ms).get_mem i.1 i.2
    have hmemJ : (analyze_ranking ms).get j ∈ analyze_ranking ms :=
      (analyze_ranking ms).get_mem j.1 j.2
    obtain ⟨hIms, hIscore, hIpass, hIv⟩ := mem_scoreConfigs (mem_analyze_ranking hmemI)
    obtain ⟨hJms, hJscore, hJpass, hJv⟩ := mem_scoreConfigs (mem_analyze_ranking hmemJ)
    have hIscoreTop : ((analyze_ranking ms).get i).score = ⊤ := by
      rw [hIscore, hmi]
      exact compute_score_no_data h0 ms
    have hJlt : ((analyze_ranking ms).get j).score < ⊤ := by
      rw [hJscore]
      exact compute_score_lt_top hJms hjp hjc
    have hIpassF : ((analyze_ranking ms).get i).passes_constraints = false := by
      rw [hIpass, hmi, check_no_data h0]
    have hIflag : failFlag ((analyze_ranking ms).get i) = 1 := by
      unfold failFlag
      rw [hIpassF]
      rfl
    by_contra hcon
    push_neg at hcon
    rcases Nat.eq_or_lt_of_le hcon with heq | hlt
    · have hij : i = j := Fin.ext heq
      rw [hij] at hmi
      exact hjp (by rw [hmi, h0])
    · have hrel := List.pairwise_iff_get.mp (sorted_analyze_ranking ms) i j
        (Fin.lt_def.mpr hlt)
      rcases hrel with hf | ⟨hf, hs⟩
      · have hJle : failFlag ((analyze_ranking ms).get j) ≤ 1 := by
          unfold failFlag
          split <;> omega
        rw [hIflag] at hf
        omega
      · rw [hIscoreTop] at hs
        exact absurd (top_le_iff.mp hs) (ne_of_lt hJlt)

/-- Witness for C3 at a concrete configuration with no samples. -/
theorem no_data_witness :
    check_hard_constraints noSamplesCfg = (false, [Violation.noData]) :=
  (no_data_fails_and_sorts_last noSamplesCfg rfl rfl).1

/-- Claim C1: the ranking is sorted ascending by the key
`(not passes_constraints, score)` — passing entries sort before failing ones,
lower score first within each group — the recommendation is the first passing
entry of the ranking, it always passes (in particular a configuration with
`reconnects = 2` is never the recommendation), and with no passing entry the
recommendation is the distinct absent value rather than an error. -/
theorem ranking_order_and_recommendation (ms : List ConfigMetrics) :
    List.Sorted rankLe (analyze_ranking ms)
    ∧ (∀ i j : Fin (analyze_ranking ms).length, (i : ℕ) ≤ (j : ℕ) →
        ((analyze_ranking ms).get j).passes_constraints = true →
        ((analyze_ranking ms).get i).passes_constraints = true)
    ∧ (∀ i j : Fin (analyze_ranking ms).length, (i : ℕ) ≤ (j : ℕ) →
        ((analyze_ranking ms).get i).passes_constraints =
          ((analyze_ranking ms).get j).passes_constraints →
        ((analyze_ranking ms).get i).score ≤ ((analyze_ranking ms).get j).score)
    ∧ analyze_recommendation ms =
        ((analyze_ranking ms).filter (fun s => s.passes_constraints)).head?
    ∧ (∀ e : ScoredEntry, analyze_recommendation ms = some e →
        e.passes_constraints = true)
    ∧ (∀ e : ScoredEntry, analyze_recommendation ms = some e →
        e.metrics.reconnects ≤ 1)
    ∧ ((∀ e ∈ analyze_ranking ms, e.passes_constraints = false) →
        analyze_recommendation ms = none) := by
  have hsorted := sorted_analyze_ranking ms
  refine ⟨hsorted, ?_, ?_, rfl, ?_, ?_, ?_⟩
  · intro i j hle hpj
    rcases Nat.eq_or_lt_of_le hle with heq | hlt
    · rw [Fin.ext heq]
      exact hpj
    · have hrel := List.pairwise_iff_get.mp hsorted i j (Fin.lt_def.mpr hlt)
      have hfj : failFlag ((analyze_ranking ms).get j) = 0 := failFlag_eq_zero.mpr hpj
      rcases hrel with hf | ⟨hf, _⟩
      · rw [hfj] at hf
        omega
      · exact failFlag_eq_zero.mp (by rw [hf, hfj])
  · intro i j hle heq
    rcases Nat.eq_or_lt_of_le hle with heqn | hlt
    · rw [Fin.ext heqn]
    · have hrel := List.pairwise_iff_get.mp hsorted i j (Fin.lt_def.mpr hlt)
      rcases hrel with hf | ⟨_, hs⟩
      · exfalso
        have hfe : failFlag ((analyze_ranking ms).get i) =
            failFlag ((analyze_ranking ms).get j) := by
          unfold failFlag
          rw [heq]
        omega
      · exact hs
  · intro e he
    unfold analyze_recommendation export_recommendation at he
    have hmem : e ∈ (analyze_ranking ms).filter (fun s => s.passes_constraints) :=
      List.mem_of_mem_head? (Option.mem_def.mpr he)
    exact (List.mem_filter.mp hmem).2
  · intro e he
    unfold analyze_recommendation export_recommendation at he
    have hmem : e ∈ (analyze_ranking ms).filter (fun s => s.passes_constraints) :=
      List.mem_of_mem_head? (Option.mem_def.mpr he)
    have hpass : e.passes_constraints = true := (List.mem_filter.mp hmem).2
    have hin : e ∈ analyze_ranking ms := (List.mem_filter.mp hmem).1
    obtain ⟨hms, hsc, hpe, hv⟩ := mem_scoreConfigs (mem_analyze_ranking hin)
    by_contra hcon
    push_neg at hcon
    have hfail : (check_hard_constraints e.metrics).1 = false :=
      check_fails_of_reconnects hcon
    rw [hpe, hfail] at hpass
    exact Bool.false_ne_true hpass
  · intro hall
    unfold analyze_recommendation export_recommendation
    have hnil : (analyze_ranking ms).filter (fun s => s.passes_constraints) = [] :=
      List.filter_eq_nil_iff.mpr (fun a ha => by simp [hall a ha])
    rw [hnil]
    rfl

/-- Witness for C1: a concrete analysis in which no configuration passes the
constraints yields the distinct absent recommendation. -/
theorem ranking_recommendation_witness :
    analyze_recommendation [noSamplesCfg] = none :=
  (ranking_order_and_recommendation [noSamplesCfg]).2.2.2.2.2.2 (by decide)
